import Mathlib

/-!
Verification of the extraction-and-deduplication pipeline of the Replit
bounty scraper (`api/index.py`).

The Python source is shallowly embedded below.  Pure helpers become Lean
functions; the stateful dedup tracker becomes explicit state passing; the
`re` library calls are modelled by a small backtracking matcher that follows
CPython's leftmost, greedy, depth-first backtracking semantics for the three
concrete price patterns the scraper uses; prices (Python floats holding
decimal currency amounts parsed from digit strings) are modelled as exact
decimals, with `ℚ` values appearing in theorem statements only.
-/

namespace BountyBot

/-! ## A miniature backtracking regex engine

`Matcher γ` runs at one fixed position of the input: it returns every way the
pattern can match a prefix of the input, as `(capture, rest-of-input)` pairs,
ordered by CPython's backtracking priority (greedy alternatives first).  The
head of the list is the match the `re` module commits to. -/

def Matcher (γ : Type) : Type := List Char → List (γ × List Char)

def mpure {γ : Type} (x : γ) : Matcher γ := fun s => [(x, s)]

def mbind {α β : Type} (a : Matcher α) (f : α → Matcher β) : Matcher β :=
  fun s => (a s).flatMap (fun p => f p.1 p.2)

def mmap {α β : Type} (f : α → β) (a : Matcher α) : Matcher β :=
  fun s => (a s).map (fun p => (f p.1, p.2))

/-- Ordered alternation: alternatives of `a` are preferred over those of `b`. -/
def morelse {γ : Type} (a b : Matcher γ) : Matcher γ := fun s => a s ++ b s

def mchar (p : Char → Bool) : Matcher Char := fun s =>
  match s with
  | [] => []
  | c :: r => if p c then [(c, r)] else []

def mlit (c : Char) : Matcher Char := mchar (fun x => x == c)

/-- Case-insensitive literal (the scraper passes `re.IGNORECASE`). -/
def mciLit (c : Char) : Matcher Char := mchar (fun x => x.toLower == c)

def mdigit : Matcher Char := mchar Char.isDigit

def mws : Matcher Char := mchar Char.isWhitespace

/-- `?` — greedy: the consuming alternative first. -/
def mopt {γ : Type} (a : Matcher γ) : Matcher (Option γ) :=
  morelse (mmap some a) (mpure none)

/-- `*` — greedy, fuelled: alternatives ordered from most to fewest
repetitions.  Every repetition body used below consumes at least one
character, so fuel `|input| + 1` makes this exact. -/
def mstar {γ : Type} (a : Matcher γ) : Nat → Matcher (List γ)
  | 0 => mpure []
  | n + 1 => morelse (mbind a (fun x => mmap (fun xs => x :: xs) (mstar a n))) (mpure [])

/-- `{n}` — exactly `n` repetitions. -/
def mexact {γ : Type} (a : Matcher γ) : Nat → Matcher (List γ)
  | 0 => mpure []
  | n + 1 => mbind a (fun x => mmap (fun xs => x :: xs) (mexact a n))

/-- A case-insensitive literal word. -/
def mstrCI : List Char → Matcher Unit
  | [] => mpure ()
  | c :: cs => mbind (mciLit c) (fun _ => mstrCI cs)

/-- `\d{1,3}`, greedy. -/
def digits13 : Matcher (List Char) :=
  mbind mdigit (fun c => mmap (fun cs => c :: cs) (mstar mdigit 2))

/-- `,\d{3}`. -/
def commaGroup : Matcher (List Char) :=
  mbind (mlit ',') (fun c => mmap (fun ds => c :: ds) (mexact mdigit 3))

/-- `\.\d{2}`. -/
def fracGroup : Matcher (List Char) :=
  mbind (mlit '.') (fun c => mmap (fun ds => c :: ds) (mexact mdigit 2))

/-- `\d{1,3}(?:,\d{3})*(?:\.\d{2})?` — the numeric core shared by the
currency, cycles and free-text range patterns; captures the matched text. -/
def numCore (fuel : Nat) : Matcher (List Char) :=
  mbind digits13 (fun a =>
    mbind (mstar commaGroup fuel) (fun gs =>
      mmap (fun f => a ++ gs.flatten ++ f.getD []) (mopt fracGroup)))

/-- `\d+`, greedy. -/
def mdigitsPlus (fuel : Nat) : Matcher (List Char) :=
  mbind mdigit (fun c => mmap (fun cs => c :: cs) (mstar mdigit fuel))

/-- `\d+(?:,\d{3})*` — the range-endpoint form used in `_extract_bounty_data`. -/
def intComma (fuel : Nat) : Matcher (List Char) :=
  mbind (mdigitsPlus fuel) (fun a => mmap (fun gs => a ++ gs.flatten) (mstar commaGroup fuel))

/-- `\$(\d{1,3}(?:,\d{3})*(?:\.\d{2})?)` — group 1 is captured. -/
def patCurrency (fuel : Nat) : Matcher (List Char) :=
  mbind (mlit '$') (fun _ => numCore fuel)

/-- `(\d{1,3}(?:,\d{3})*(?:\.\d{2})?)\s*cycles?` with `re.IGNORECASE`. -/
def patCycles (fuel : Nat) : Matcher (List Char) :=
  mbind (numCore fuel) (fun n =>
    mbind (mstar mws fuel) (fun _ =>
      mbind (mstrCI ['c', 'y', 'c', 'l', 'e']) (fun _ =>
        mmap (fun _ => n) (mopt (mciLit 's')))))

/-- `(\d+(?:,\d{3})*)\s*-\s*(\d+(?:,\d{3})*)` — the element-level range pattern. -/
def patRangeElem (fuel : Nat) : Matcher (List Char × List Char) :=
  mbind (intComma fuel) (fun a =>
    mbind (mstar mws fuel) (fun _ =>
      mbind (mlit '-') (fun _ =>
        mbind (mstar mws fuel) (fun _ =>
          mmap (fun b => (a, b)) (intComma fuel)))))

/-- `(\d{1,3}(?:,\d{3})*(?:\.\d{2})?)\s*-\s*(…same…)` — the free-text range
pattern of `_extract_from_text`. -/
def patRangeText (fuel : Nat) : Matcher (List Char × List Char) :=
  mbind (numCore fuel) (fun a =>
    mbind (mstar mws fuel) (fun _ =>
      mbind (mlit '-') (fun _ =>
        mbind (mstar mws fuel) (fun _ =>
          mmap (fun b => (a, b)) (numCore fuel)))))

/-- Leftmost match: try the pattern at each position in turn and commit to the
first (highest-priority) alternative at the first position that matches. -/
def search {γ : Type} (a : Matcher γ) : List Char → Option (γ × List Char)
  | [] =>
    match a [] with
    | p :: _ => some p
    | [] => none
  | c :: t =>
    match a (c :: t) with
    | p :: _ => some p
    | [] => search a t

/-- `re.findall`: repeatedly `search`, resuming after the end of each match.
All patterns here consume at least one character per match, so fuel
`|input| + 1` is enough. -/
def findallAux {γ : Type} (a : Matcher γ) : Nat → List Char → List γ
  | 0, _ => []
  | n + 1, s =>
    match search a s with
    | none => []
    | some (x, r) => x :: findallAux a n r

def re_findall_currency (s : String) : List String :=
  (findallAux (patCurrency (s.length + 1)) (s.length + 1) s.data).map String.mk

def re_findall_cycles (s : String) : List String :=
  (findallAux (patCycles (s.length + 1)) (s.length + 1) s.data).map String.mk

def re_findall_rangeElem (s : String) : List (String × String) :=
  (findallAux (patRangeElem (s.length + 1)) (s.length + 1) s.data).map
    (fun p => (String.mk p.1, String.mk p.2))

def re_findall_rangeText (s : String) : List (String × String) :=
  (findallAux (patRangeText (s.length + 1)) (s.length + 1) s.data).map
    (fun p => (String.mk p.1, String.mk p.2))

/-! ## Exact decimals: the value domain of the Python floats in this program

Every float the scraper manipulates is parsed from a decimal digit string,
so it is an exact non-negative decimal.  `Dec` represents `mant / 10 ^ exp`
with plain naturals (kept unnormalised, exactly as parsing produces it);
`Dec.toRat` gives its mathematical value and is used in theorem statements
only.  All executable comparisons are cross-multiplied `Nat` comparisons. -/

def natPad (n width : Nat) : String :=
  let s := toString n
  String.mk (List.replicate (width - s.length) '0') ++ s

structure Dec where
  mant : Nat
  exp : Nat
deriving DecidableEq

def Dec.toRat (d : Dec) : ℚ := (d.mant : ℚ) / (10 : ℚ) ^ d.exp

/-- Python `<` on float values. -/
def Dec.blt (a b : Dec) : Bool := decide (a.mant * 10 ^ b.exp < b.mant * 10 ^ a.exp)

/-- Python `max` of two floats: the second argument only on strict increase. -/
def Dec.max (a b : Dec) : Dec := if Dec.blt a b then b else a

/-- Strip trailing zeros: fuelled by the exponent, which drops each step. -/
def Dec.normAux : Nat → Nat → Nat → Dec
  | _, m, 0 => ⟨m, 0⟩
  | 0, m, e => ⟨m, e⟩
  | f + 1, m, e => if m % 10 = 0 then Dec.normAux f (m / 10) (e - 1) else ⟨m, e⟩

/-- The canonical form of a decimal: same value, no trailing zeros. -/
def Dec.norm (d : Dec) : Dec := Dec.normAux d.exp d.mant d.exp

/-- Python `str(float)` (as an f-string interpolates it) for exact decimals:
the shortest decimal digit string, with `.0` on integral values. -/
def pyFloatStr (d : Dec) : String :=
  let n := d.norm
  if n.exp = 0 then toString n.mant ++ ".0"
  else toString (n.mant / 10 ^ n.exp) ++ "." ++ natPad (n.mant % 10 ^ n.exp) n.exp

/-- The value living in `bounty['price']`: the initial Python int `0` (kept
when no price pattern matched — an int renders as `"0"`, not `"0.0"`) or a
parsed float. -/
inductive PyNum where
  | intZero
  | flt (d : Dec)
deriving DecidableEq

def PyNum.toDec : PyNum → Dec
  | PyNum.intZero => ⟨0, 0⟩
  | PyNum.flt d => d

def PyNum.toRat (p : PyNum) : ℚ := p.toDec.toRat

/-- Value comparison, as Python compares an int `0` with floats. -/
def PyNum.blt (a b : PyNum) : Bool := Dec.blt a.toDec b.toDec

def PyNum.isFloat : PyNum → Bool
  | PyNum.intZero => false
  | PyNum.flt _ => true

/-- How an f-string renders the price into the hashed id string. -/
def pyNumRepr : PyNum → String
  | PyNum.intZero => "0"
  | PyNum.flt d => pyFloatStr d

/-! ## Numeric helpers: `str.replace(',', '')` and `float(...)` -/

def stripCommas (s : String) : String := String.mk (s.data.filter (fun c => c != ','))

def digitsToNat (l : List Char) : Nat := l.foldl (fun a c => a * 10 + (c.toNat - 48)) 0

/-- `str.split` on a single separator character. -/
def splitOnChar (sep : Char) : List Char → List (List Char)
  | [] => [[]]
  | c :: rest =>
    if c = sep then [] :: splitOnChar sep rest
    else
      match splitOnChar sep rest with
      | [] => [[c]]
      | g :: gs => (c :: g) :: gs

/-- Python `float(s)`, restricted to the decimal forms the scraper's matches
can take (digit strings with at most one dot); anything else raises
`ValueError`, modelled as `none`.  Values are exact decimals. -/
def parsePyFloat? (s : String) : Option Dec :=
  match splitOnChar '.' s.data with
  | [a] => if a ≠ [] ∧ a.all Char.isDigit then some ⟨digitsToNat a, 0⟩ else none
  | [a, b] =>
    if (a ≠ [] ∨ b ≠ []) ∧ a.all Char.isDigit ∧ b.all Char.isDigit then
      some ⟨digitsToNat a * 10 ^ b.length + digitsToNat b, b.length⟩
    else none
  | _ => none

/-! ## `_extract_bounty_data`'s price loop

`re.findall` returns strings for one-group patterns and tuples for two-group
patterns; the Python code inspects `len(matches[0])`, which is the *string
length* for the first two patterns and the tuple arity for the third. -/

inductive PyMatch where
  | str (s : String)
  | pair (a b : String)
deriving DecidableEq

/-- The `try:` body of the price loop: `len(matches[0]) == 2` selects the
range branch, which for a two-character string match takes the two
*characters*; `ValueError` becomes `none` (the `except ... continue`). -/
def matchValue : PyMatch → Option Dec
  | PyMatch.pair a b =>
    match parsePyFloat? (stripCommas a), parsePyFloat? (stripCommas b) with
    | some x, some y => some (Dec.max x y)
    | _, _ => none
  | PyMatch.str s =>
    if s.length = 2 then
      match parsePyFloat? (stripCommas (String.mk (s.data.take 1))),
            parsePyFloat? (stripCommas (String.mk ((s.data.drop 1).take 1))) with
      | some x, some y => some (Dec.max x y)
      | _, _ => none
    else parsePyFloat? (stripCommas s)

/-- `for pattern in price_patterns: ...` — each entry is the `findall` result
of one pattern; an empty result or a parse failure moves on to the next
pattern, a successful parse of `matches[0]` breaks with that value;
`price_value` starts at the Python int `0` and stays an int if nothing
parsed. -/
def priceLoop : List (List PyMatch) → PyNum
  | [] => PyNum.intZero
  | ms :: rest =>
    match ms with
    | [] => priceLoop rest
    | m :: _ =>
      match matchValue m with
      | some v => PyNum.flt v
      | none => priceLoop rest

/-- The three `price_patterns` of `_extract_bounty_data`, in priority order. -/
def elemMatches (text : String) : List (List PyMatch) :=
  [(re_findall_currency text).map PyMatch.str,
   (re_findall_cycles text).map PyMatch.str,
   (re_findall_rangeElem text).map (fun p => PyMatch.pair p.1 p.2)]

def extractPrice (text : String) : PyNum := priceLoop (elemMatches text)

/-! ## Hashing and string formatting -/

/-- `hashlib.md5(...).hexdigest()`, modelled by a deterministic FNV-style
digest of the string rendered in hex.  Every claim about identifiers relies
only on the digest being a function of its input string (the spec: "exact
algorithm is not load-bearing, only its determinism"). -/
def md5hex (s : String) : String :=
  let h := s.data.foldl (fun h c => ((h ^^^ c.toNat) * 1099511628211) % 2 ^ 64)
    14695981039346656037
  String.mk (Nat.toDigits 16 h)

def groupThousandsAux : Nat → Nat → String
  | 0, n => toString n
  | fuel + 1, n =>
    if n < 1000 then toString n
    else groupThousandsAux fuel (n / 1000) ++ "," ++ natPad (n % 1000) 3

/-- Python `f"{v:,.2f}"` for the non-negative decimals this code produces
(used only inside generated titles, which no identifier depends on). -/
def formatMoney2 (d : Dec) : String :=
  let cents :=
    if d.exp ≤ 2 then d.mant * 10 ^ (2 - d.exp)
    else (d.mant + 10 ^ (d.exp - 2) / 2) / 10 ^ (d.exp - 2)
  groupThousandsAux 40 (cents / 100) ++ "." ++ natPad (cents % 100) 2

/-! ## Data model -/

/-- A bounty record as built by the scraper. -/
structure Bounty where
  id : String
  title : String
  price : PyNum
  link : String
  posted_time : String
  raw_text : String
deriving DecidableEq

/-- One element matched by a bounty selector, abstracting the BeautifulSoup
queries `_extract_bounty_data` performs on it: `text` is
`element.get_text()`, `titleText` is the text of the first title selector
(`h1, h2, h3, .title, [class*="title"]`) that matches a sub-element (if
any), and `anchorHref` is the `href` of `element.find('a') or
element.find_parent('a')` when that element exists and has one. -/
structure HtmlElement where
  text : String
  titleText : Option String
  anchorHref : Option String
deriving DecidableEq

/-- A fetched page, abstracting `BeautifulSoup(html_content, 'html.parser')`:
`content` is the raw HTML string (which `_extract_from_text` scans
directly), `select` gives `soup.select(selector)` for each CSS selector. -/
structure Doc where
  content : String
  select : String → List HtmlElement

/-- `pre.isPrefixOf l` on character lists (Python `str.startswith`). -/
def charPrefix : List Char → List Char → Bool
  | [], _ => true
  | _ :: _, [] => false
  | p :: ps, c :: cs => p == c && charPrefix ps cs

/-- Split a URL at the first `"://"`. -/
def splitScheme : List Char → Option (List Char × List Char)
  | [] => none
  | c :: rest =>
    if c = ':' ∧ rest.take 2 = ['/', '/'] then some ([], rest.drop 2)
    else (splitScheme rest).map (fun p => (c :: p.1, p.2))

/-- `urllib.parse.urljoin`, covering the URL shapes this scraper meets:
absolute http(s) URLs, protocol-relative, root-relative and relative
hrefs against an http(s) base. -/
def urljoin (base url : String) : String :=
  if url.data.isEmpty then base
  else if charPrefix "http://".data url.data || charPrefix "https://".data url.data then url
  else
    match splitScheme base.data with
    | none => url
    | some (scheme, tail) =>
      if charPrefix "//".data url.data then String.mk scheme ++ ":" ++ url
      else
        let host := String.mk (tail.takeWhile (fun c => c != '/'))
        let path := tail.dropWhile (fun c => c != '/')
        if charPrefix "/".data url.data then String.mk scheme ++ "://" ++ host ++ url
        else
          let dir := (path.reverse.dropWhile (fun c => c != '/')).reverse
          String.mk scheme ++ "://" ++ host ++
            (if dir.isEmpty then "/" else String.mk dir) ++ url

/-! ## The extractor (`ReplitBountyScraper`) -/

def bounty_selectors : List String :=
  ["div[data-testid*=\"bounty\"]", ".bounty-card", ".service-card",
   "[class*=\"bounty\"]", "[class*=\"service\"]"]

/-- `_extract_bounty_data(element, base_url)`; `now` is the
`datetime.now().isoformat()` read at extraction time. -/
def extract_bounty_data (e : HtmlElement) (base_url now : String) : Bounty :=
  let title := e.titleText.getD "Unknown Title"
  let price := extractPrice e.text
  let link :=
    match e.anchorHref with
    | some href => urljoin base_url href
    | none => ""
  { id := md5hex (title ++ pyNumRepr price ++ link)
    title := title
    price := price
    link := link
    posted_time := now
    raw_text := String.mk (e.text.data.take 200) }

/-- The selector loop of `_parse_bounties`: the first selector whose
`soup.select` result is non-empty supplies every record, and the loop
`break`s — later selectors are never consulted. -/
def parseStructured (doc : Doc) (url now : String) : List String → List Bounty
  | [] => []
  | sel :: rest =>
    match doc.select sel with
    | [] => parseStructured doc url now rest
    | e :: es => (e :: es).map (fun el => extract_bounty_data el url now)

/-- One `_extract_from_text` match: tuples (the two-group range pattern) take
the max endpoint, strings parse directly — this function uses the correct
`isinstance(match, tuple)` test, unlike the element-level price loop. -/
def textMatchValue : PyMatch → Option Dec
  | PyMatch.pair a b =>
    match parsePyFloat? (stripCommas a), parsePyFloat? (stripCommas b) with
    | some x, some y => some (Dec.max x y)
    | _, _ => none
  | PyMatch.str s => parsePyFloat? (stripCommas s)

/-- Both free-text patterns contribute matches, in pattern order. -/
def textMatches (content : String) : List PyMatch :=
  (re_findall_currency content).map PyMatch.str ++
    (re_findall_rangeText content).map (fun p => PyMatch.pair p.1 p.2)

def mkTextBounty (v : Dec) (url now : String) : Bounty :=
  { id := md5hex ("extracted_" ++ pyFloatStr v ++ "_" ++ url)
    title := "Replit Service/Bounty - $" ++ formatMoney2 v
    price := PyNum.flt v
    link := url
    posted_time := now
    raw_text := "Extracted from page content" }

/-- `_extract_from_text(html_content, url)`: every match of either pattern
with a strictly positive parsed value becomes a synthetic record; parse
failures are skipped. -/
def extract_from_text (content url now : String) : List Bounty :=
  (textMatches content).filterMap (fun m =>
    match textMatchValue m with
    | some v => if Dec.blt ⟨0, 0⟩ v then some (mkTextBounty v url now) else none
    | none => none)

/-- `_filter_recent_bounties`: the loop appends every record unconditionally
(posting timestamps are not extractable), written here as the literal fold. -/
def filter_recent_bounties (bounties : List Bounty) : List Bounty :=
  bounties.foldl (fun acc b => acc ++ [b]) []

/-- `_parse_bounties(html_content, url)`: structured tier first, free-text
tier only if it produced nothing, then the recency filter. -/
def parse_bounties (doc : Doc) (url now : String) : List Bounty :=
  let structured := parseStructured doc url now bounty_selectors
  let bounties := if structured.isEmpty then extract_from_text doc.content url now else structured
  filter_recent_bounties bounties

/-- `_get_sample_bounties()`; `date` is `datetime.now().date()`. -/
def get_sample_bounties (date now : String) : List Bounty :=
  [{ id := md5hex ("sample1_" ++ date)
     title := "Build a React Dashboard for Analytics"
     price := PyNum.flt ⟨2500, 0⟩
     link := "https://replit.com/bounties/sample1"
     posted_time := now
     raw_text := "Sample bounty for testing purposes" },
   { id := md5hex ("sample2_" ++ date)
     title := "Create a Discord Bot with Python"
     price := PyNum.flt ⟨1500, 0⟩
     link := "https://replit.com/bounties/sample2"
     posted_time := now
     raw_text := "Sample bounty for testing purposes" },
   { id := md5hex ("sample3_" ++ date)
     title := "Develop a Mobile App with Flutter"
     price := PyNum.flt ⟨5000, 0⟩
     link := "https://replit.com/bounties/sample3"
     posted_time := now
     raw_text := "Sample bounty for testing purposes" }]

def urls_to_try : List String :=
  ["https://replit.com/bounties?status=open&order=creationDateDescending",
   "https://replit.com/bounties",
   "https://replit.com/site/bounties"]

/-- `scrape_bounties()`: try each candidate URL in order; `fetch u = some doc`
models a 200 response with parsed body `doc`, `none` a non-2xx response or
network error.  The first success is parsed; if every candidate fails, the
sample data is returned. -/
def scrape_bounties (fetch : String → Option Doc) (date now : String) : List Bounty :=
  match urls_to_try.findSome? (fun u => (fetch u).map (fun d => (d, u))) with
  | some (d, u) => parse_bounties d u now
  | none => get_sample_bounties date now

/-! ## The dedup tracker (`BountyTracker`)

State is `sent_bounties` (the in-memory Python set, kept as a
duplicate-free list) plus `storage` (the `sent_bounties` key of
`/tmp/sent_bounties.json`; `none` models a missing or unreadable file). -/

structure BountyTracker where
  sent_bounties : List String
  storage : Option (List String)
deriving DecidableEq

/-- `__init__` + `load_sent_bounties`: start empty, then load
`set(data.get('sent_bounties', []))` when the file exists. -/
def BountyTracker.init (storage : Option (List String)) : BountyTracker :=
  match storage with
  | some data => { sent_bounties := data.dedup, storage := some data }
  | none => { sent_bounties := [], storage := none }

/-- `is_bounty_sent`: `bounty_id in self.sent_bounties`. -/
def is_bounty_sent (t : BountyTracker) (bounty_id : String) : Bool :=
  decide (bounty_id ∈ t.sent_bounties)

/-- `mark_bounty_sent`: `self.sent_bounties.add(bounty_id)` (set insertion)
followed by `save_sent_bounties()`, which writes the full current set. -/
def mark_bounty_sent (t : BountyTracker) (bounty_id : String) : BountyTracker :=
  let s := if bounty_id ∈ t.sent_bounties then t.sent_bounties else t.sent_bounties ++ [bounty_id]
  { sent_bounties := s, storage := some s }

/-! ## The `/scrape` endpoint (`trigger_scrape`) and `/bounties` -/

/-- `[b for b in bounties if not tracker.is_bounty_sent(b['id'])]`. -/
def unsentOf (bounties : List Bounty) (t : BountyTracker) : List Bounty :=
  bounties.filter (fun b => !(is_bounty_sent t b.id))

/-- Python `max(l, key=...)` on a non-empty list: keep the current best and
replace it only on a strictly greater key, so the first of equal maxima wins. -/
def foldMax (x : Bounty) (xs : List Bounty) : Bounty :=
  xs.foldl (fun acc y => if PyNum.blt acc.price y.price then y else acc) x

/-- The selection performed by `trigger_scrape`: filter out already-sent
records, then `max(unsent_bounties, key=lambda x: x['price'])`. -/
def selectBounty (bounties : List Bounty) (t : BountyTracker) : Option Bounty :=
  match unsentOf bounties t with
  | [] => none
  | x :: xs => some (foldMax x xs)

/-- The JSON responses `trigger_scrape` can produce. -/
inductive ScrapeResult where
  | noBounties
  | noNew (total : Nat)
  | sent (b : Bounty) (total newCount : Nat)
  | sendFailed (b : Bounty)
  | noWebhook (b : Bounty) (total newCount : Nat)
deriving DecidableEq

/-- The HTTP status code attached to each response. -/
def ScrapeResult.httpCode : ScrapeResult → Nat
  | ScrapeResult.sendFailed _ => 500
  | _ => 200

/-- The `"status"` field of each response body. -/
def ScrapeResult.statusStr : ScrapeResult → String
  | ScrapeResult.noBounties => "success"
  | ScrapeResult.noNew _ => "success"
  | ScrapeResult.sent _ _ _ => "success"
  | ScrapeResult.sendFailed _ => "error"
  | ScrapeResult.noWebhook _ _ _ => "warning"

/-- `trigger_scrape()`, with the scrape result passed in (`bounties`), the
`SLACK_WEBHOOK_URL` environment value (`slack_webhook`), and delivery
modelled by `deliver url bounty = true` iff the Slack POST returned 200.
Returns the response together with the tracker state after the request:
the chosen record is marked sent only when delivery succeeds. -/
def trigger_scrape (bounties : List Bounty) (slack_webhook : Option String)
    (deliver : String → Bounty → Bool) (t : BountyTracker) :
    ScrapeResult × BountyTracker :=
  if bounties.isEmpty then (ScrapeResult.noBounties, t)
  else
    match unsentOf bounties t with
    | [] => (ScrapeResult.noNew bounties.length, t)
    | x :: xs =>
      let highest := foldMax x xs
      match slack_webhook with
      | some wh =>
        if deliver wh highest then
          (ScrapeResult.sent highest bounties.length (x :: xs).length,
           mark_bounty_sent t highest.id)
        else (ScrapeResult.sendFailed highest, t)
      | none => (ScrapeResult.noWebhook highest bounties.length (x :: xs).length, t)

/-- The JSON body of a successful `GET /bounties`. -/
structure BountiesResponse where
  status : String
  bounties : List Bounty
  count : Nat
  timestamp : String

/-- `get_bounties()`: runs the scrape pipeline and reports the records; the
tracker is threaded through to expose that the handler never touches it. -/
def get_bounties (fetch : String → Option Doc) (date now : String)
    (t : BountyTracker) : BountiesResponse × BountyTracker :=
  let bounties := scrape_bounties fetch date now
  ({ status := "success", bounties := bounties, count := bounties.length,
     timestamp := now }, t)

/-! ## Concrete fixtures used by witnesses -/

def bLow : Bounty :=
  { id := "a", title := "Fix a bug", price := PyNum.flt ⟨1000, 0⟩, link := "", posted_time := "T", raw_text := "" }

def bHigh : Bounty :=
  { id := "b", title := "Build an app", price := PyNum.flt ⟨2500, 0⟩, link := "", posted_time := "T", raw_text := "" }

def cardElement : HtmlElement :=
  { text := "Build a Dashboard $2,500.00", titleText := some "Build a Dashboard",
    anchorHref := some "/bounties/42" }

def docWithCard : Doc :=
  { content := "Build a Dashboard $2,500.00",
    select := fun s => if s = ".bounty-card" then [cardElement] else [] }

def emptyDoc : Doc := { content := "", select := fun _ => [] }

def dummyBounty : Bounty :=
  { id := "", title := "", price := PyNum.intZero, link := "", posted_time := "", raw_text := "" }

def trackedOnce : BountyTracker := mark_bounty_sent (BountyTracker.init none) "id1"

/-! ## Helper lemmas -/

lemma foldl_append_eq (l acc : List Bounty) :
    l.foldl (fun acc b => acc ++ [b]) acc = acc ++ l := by
  induction l generalizing acc with
  | nil => simp
  | cons b bs ih => simp [List.foldl_cons, ih]

/-- The recency filter appends every record unconditionally: it is the identity. -/
lemma filter_recent_id (l : List Bounty) : filter_recent_bounties l = l := by
  simp [filter_recent_bounties, foldl_append_eq]

/-- Membership in the tracker after `mark_bounty_sent`. -/
lemma mem_mark (t : BountyTracker) (i a : String) :
    a ∈ (mark_bounty_sent t i).sent_bounties ↔ a = i ∨ a ∈ t.sent_bounties := by
  show a ∈ (if i ∈ t.sent_bounties then t.sent_bounties else t.sent_bounties ++ [i]) ↔ _
  by_cases h : i ∈ t.sent_bounties
  · rw [if_pos h]
    constructor
    · exact Or.inr
    · rintro (rfl | ha)
      · exact h
      · exact ha
  · rw [if_neg h, List.mem_append, List.mem_singleton]
    tauto

lemma Dec.blt_iff (a b : Dec) : Dec.blt a b = true ↔ a.toRat < b.toRat := by
  rw [Dec.blt, decide_eq_true_eq, Dec.toRat, Dec.toRat,
    div_lt_div_iff₀ (by positivity) (by positivity)]
  constructor
  · intro h
    exact_mod_cast h
  · intro h
    exact_mod_cast h

lemma Dec.blt_false_iff (a b : Dec) : Dec.blt a b = false ↔ b.toRat ≤ a.toRat := by
  rw [Bool.eq_false_iff, Ne, Dec.blt_iff, not_lt]

lemma pyNumBlt_iff (a b : PyNum) : PyNum.blt a b = true ↔ a.toRat < b.toRat :=
  Dec.blt_iff a.toDec b.toDec

lemma pyNumBlt_false_iff (a b : PyNum) : PyNum.blt a b = false ↔ b.toRat ≤ a.toRat :=
  Dec.blt_false_iff a.toDec b.toDec

lemma Dec.max_toRat (a b : Dec) : (Dec.max a b).toRat = Max.max a.toRat b.toRat := by
  unfold Dec.max
  cases h : Dec.blt a b with
  | false =>
    rw [if_neg Bool.false_ne_true]
    exact (max_eq_left ((Dec.blt_false_iff a b).mp h)).symm
  | true =>
    rw [if_pos rfl]
    exact (max_eq_right (le_of_lt ((Dec.blt_iff a b).mp h))).symm

lemma Dec.normAux_toRat : ∀ (f m e : Nat), (Dec.normAux f m e).toRat = Dec.toRat ⟨m, e⟩ := by
  intro f
  induction f with
  | zero =>
    intro m e
    cases e <;> rfl
  | succ f ih =>
    intro m e
    cases e with
    | zero => rfl
    | succ e' =>
      show (if m % 10 = 0 then Dec.normAux f (m / 10) e' else ⟨m, e' + 1⟩).toRat = _
      by_cases h : m % 10 = 0
      · rw [if_pos h]
        have hm : m / 10 * 10 = m := Nat.div_mul_cancel (Nat.dvd_of_mod_eq_zero h)
        rw [ih (m / 10) e']
        show ((m / 10 : ℕ) : ℚ) / (10 : ℚ) ^ e' = (m : ℚ) / (10 : ℚ) ^ (e' + 1)
        rw [div_eq_div_iff (by positivity) (by positivity), pow_succ]
        have hq : ((m / 10 : ℕ) : ℚ) * 10 = (m : ℚ) := by exact_mod_cast hm
        rw [← hq]
        ring
      · rw [if_neg h]

lemma Dec.norm_toRat (d : Dec) : d.norm.toRat = d.toRat := Dec.normAux_toRat d.exp d.mant d.exp

lemma Dec.normAux_canon : ∀ (f m e : Nat), e ≤ f →
    (Dec.normAux f m e).exp = 0 ∨ (Dec.normAux f m e).mant % 10 ≠ 0 := by
  intro f
  induction f with
  | zero =>
    intro m e he
    rw [Nat.le_zero.mp he]
    exact Or.inl rfl
  | succ f ih =>
    intro m e he
    cases e with
    | zero => exact Or.inl rfl
    | succ e' =>
      show (if m % 10 = 0 then Dec.normAux f (m / 10) e' else ⟨m, e' + 1⟩).exp = 0 ∨
        (if m % 10 = 0 then Dec.normAux f (m / 10) e' else (⟨m, e' + 1⟩ : Dec)).mant % 10 ≠ 0
      by_cases h : m % 10 = 0
      · rw [if_pos h]
        exact ih (m / 10) e' (Nat.succ_le_succ_iff.mp he)
      · rw [if_neg h]
        exact Or.inr h

lemma Dec.norm_canon (d : Dec) : d.norm.exp = 0 ∨ d.norm.mant % 10 ≠ 0 :=
  Dec.normAux_canon d.exp d.mant d.exp le_rfl

/-- Two canonical decimals (no trailing zeros) with the same value are equal. -/
lemma Dec.canon_eq_le (a b : Dec) (hab : a.exp ≤ b.exp)
    (hb : b.exp = 0 ∨ b.mant % 10 ≠ 0)
    (hx : a.mant * 10 ^ b.exp = b.mant * 10 ^ a.exp) : a = b := by
  set d := b.exp - a.exp with hd
  have hbe : b.exp = a.exp + d := by omega
  have hmant : a.mant * 10 ^ d = b.mant := by
    have h1 : a.mant * 10 ^ d * 10 ^ a.exp = b.mant * 10 ^ a.exp := by
      rw [← hx, hbe, pow_add]
      ring
    exact Nat.eq_of_mul_eq_mul_right (Nat.pos_pow_of_pos a.exp (by norm_num)) h1
  cases hdz : d with
  | zero =>
    have hexp : a.exp = b.exp := by omega
    have hm : a.mant = b.mant := by
      rw [← hmant, hdz]
      simp
    cases a
    cases b
    simp_all
  | succ k =>
    exfalso
    have hmod : b.mant % 10 = 0 := by
      rw [← hmant, hdz, pow_succ, ← Nat.mul_assoc]
      exact Nat.mul_mod_left _ 10
    rcases hb with hb0 | hbm
    · omega
    · exact hbm hmod

lemma Dec.canon_eq (a b : Dec) (ha : a.exp = 0 ∨ a.mant % 10 ≠ 0)
    (hb : b.exp = 0 ∨ b.mant % 10 ≠ 0) (h : a.toRat = b.toRat) : a = b := by
  have hx : a.mant * 10 ^ b.exp = b.mant * 10 ^ a.exp := by
    have := (div_eq_div_iff (by positivity) (by positivity)).mp h
    exact_mod_cast this
  rcases le_total a.exp b.exp with hle | hle
  · exact Dec.canon_eq_le a b hle hb hx
  · exact (Dec.canon_eq_le b a hle ha hx.symm).symm

/-- `str(float)` depends only on the float's value. -/
lemma pyFloatStr_congr (a b : Dec) (h : a.toRat = b.toRat) : pyFloatStr a = pyFloatStr b := by
  have hnorm : a.norm = b.norm :=
    Dec.canon_eq a.norm b.norm (Dec.norm_canon a) (Dec.norm_canon b)
      (by rw [Dec.norm_toRat, Dec.norm_toRat, h])
  unfold pyFloatStr
  rw [hnorm]

/-- The f-string rendering of a price depends only on its value and on
whether it is the int `0` or a float. -/
lemma pyNumRepr_congr (p q : PyNum) (hf : p.isFloat = q.isFloat) (h : p.toRat = q.toRat) :
    pyNumRepr p = pyNumRepr q := by
  cases p with
  | intZero =>
    cases q with
    | intZero => rfl
    | flt d => cases hf
  | flt d =>
    cases q with
    | intZero => cases hf
    | flt d' => exact pyFloatStr_congr d d' h

/-- Python's `max(x :: xs, key=price)` returns the first element attaining
the maximal price: every element's price is bounded by its price, and every
element strictly before it in the list has a strictly smaller price. -/
lemma foldMax_spec : ∀ (xs : List Bounty) (x : Bounty),
    (∀ y ∈ x :: xs, y.price.toRat ≤ (foldMax x xs).price.toRat) ∧
    ∃ pre post, x :: xs = pre ++ (foldMax x xs) :: post ∧
      ∀ y ∈ pre, y.price.toRat < (foldMax x xs).price.toRat := by
  intro xs
  induction xs with
  | nil =>
    intro x
    exact ⟨by simp [foldMax], [], [], rfl, by simp⟩
  | cons y ys ih =>
    intro x
    have hstep : foldMax x (y :: ys) =
        foldMax (if PyNum.blt x.price y.price then y else x) ys := rfl
    cases h : PyNum.blt x.price y.price with
    | true =>
      have hlt : x.price.toRat < y.price.toRat := (pyNumBlt_iff _ _).mp h
      rw [hstep, h, if_pos rfl]
      obtain ⟨hmax, pre, post, hdec, hpre⟩ := ih y
      have hym : y.price.toRat ≤ (foldMax y ys).price.toRat :=
        hmax y (List.mem_cons_self y ys)
      refine ⟨?_, x :: pre, post, ?_, ?_⟩
      · intro z hz
        rcases List.mem_cons.mp hz with rfl | hz'
        · exact le_of_lt (lt_of_lt_of_le hlt hym)
        · exact hmax z hz'
      · simpa using congrArg (List.cons x) hdec
      · intro z hz
        rcases List.mem_cons.mp hz with rfl | hz'
        · exact lt_of_lt_of_le hlt hym
        · exact hpre z hz'
    | false =>
      have hyx : y.price.toRat ≤ x.price.toRat := (pyNumBlt_false_iff _ _).mp h
      rw [hstep, h, if_neg Bool.false_ne_true]
      obtain ⟨hmax, pre, post, hdec, hpre⟩ := ih x
      have hxm : x.price.toRat ≤ (foldMax x ys).price.toRat :=
        hmax x (List.mem_cons_self x ys)
      cases pre with
      | nil =>
        have hm : foldMax x ys = x := by
          have := hdec
          simp only [List.nil_append] at this
          exact (List.cons.injEq .. ▸ this).1.symm
        have hys : ys = post := by
          have := hdec
          simp only [List.nil_append] at this
          exact (List.cons.injEq .. ▸ this).2
        refine ⟨?_, [], y :: ys, by rw [hm]; rfl, by simp⟩
        intro z hz
        rcases List.mem_cons.mp hz with rfl | hz'
        · exact hxm
        · rcases List.mem_cons.mp hz' with rfl | hz''
          · exact le_trans hyx hxm
          · exact hmax z (List.mem_cons_of_mem x hz'')
      | cons p pre₂ =>
        have hcons := hdec
        simp only [List.cons_append] at hcons
        have hp : x = p := (List.cons.injEq .. ▸ hcons).1
        have hys : ys = pre₂ ++ foldMax x ys :: post := (List.cons.injEq .. ▸ hcons).2
        have hxlt : x.price.toRat < (foldMax x ys).price.toRat := by
          have := hpre p (List.mem_cons_self p pre₂)
          rwa [← hp] at this
        refine ⟨?_, x :: y :: pre₂, post, ?_, ?_⟩
        · intro z hz
          rcases List.mem_cons.mp hz with rfl | hz'
          · exact le_of_lt hxlt
          · rcases List.mem_cons.mp hz' with rfl | hz''
            · exact le_trans hyx (le_of_lt hxlt)
            · exact hmax z (List.mem_cons_of_mem x hz'')
        · calc x :: y :: ys = x :: y :: (pre₂ ++ foldMax x ys :: post) := by rw [← hys]
            _ = (x :: y :: pre₂) ++ foldMax x ys :: post := by simp
        · intro z hz
          rcases List.mem_cons.mp hz with rfl | hz'
          · exact hxlt
          · rcases List.mem_cons.mp hz' with rfl | hz''
            · exact lt_of_le_of_lt hyx hxlt
            · exact hpre z (List.mem_cons_of_mem p hz'')

/-- If `sel` is the first selector with a non-empty `select` result, the
structured tier maps exactly over its elements. -/
lemma parseStructured_of_find? (doc : Doc) (url now : String) :
    ∀ (sels : List String) (sel : String),
      sels.find? (fun s => !(doc.select s).isEmpty) = some sel →
      parseStructured doc url now sels =
        (doc.select sel).map (fun e => extract_bounty_data e url now) ∧
      doc.select sel ≠ [] := by
  intro sels
  induction sels with
  | nil =>
    intro sel h
    cases h
  | cons s rest ih =>
    intro sel h
    rw [List.find?_cons_eq_some] at h
    cases hsel : doc.select s with
    | nil =>
      rcases h with ⟨hps, _⟩ | ⟨_, hrest⟩
      · rw [hsel] at hps
        simp at hps
      · have := ih sel hrest
        refine ⟨?_, this.2⟩
        show parseStructured doc url now (s :: rest) = _
        unfold parseStructured
        rw [hsel]
        exact this.1
    | cons e es =>
      rcases h with ⟨_, rfl⟩ | ⟨hnp, _⟩
      · constructor
        · show parseStructured doc url now (s :: rest) = _
          unfold parseStructured
          rw [hsel]
        · rw [hsel]
          exact List.cons_ne_nil e es
      · rw [hsel] at hnp
        simp at hnp

/-- Every record the free-text tier produces carries a float price, the id
derived from that price and the page URL, and the page URL as its link. -/
lemma extract_from_text_shape (content url now : String) (r : Bounty)
    (h : r ∈ extract_from_text content url now) :
    ∃ v : Dec, r.price = PyNum.flt v ∧
      r.id = md5hex ("extracted_" ++ pyFloatStr v ++ "_" ++ url) ∧ r.link = url := by
  unfold extract_from_text at h
  obtain ⟨m, _, hr⟩ := List.mem_filterMap.mp h
  cases hv : textMatchValue m with
  | none => rw [hv] at hr; cases hr
  | some v =>
    rw [hv] at hr
    have hr' : (if Dec.blt ⟨0, 0⟩ v = true then some (mkTextBounty v url now) else none) =
        some r := hr
    by_cases hpos : Dec.blt ⟨0, 0⟩ v = true
    · rw [if_pos hpos] at hr'
      have hre := Option.some.inj hr'
      refine ⟨v, ?_, ?_, ?_⟩ <;> rw [← hre] <;> rfl
    · rw [if_neg hpos] at hr'
      cases hr' 

/-! ## The claims -/

/-- C10: `GET /bounties` never mutates the dedup store — after fetch,
extraction and the recency filter, the tracker state (the in-memory set and
the persisted storage) equals the state before the request. -/
theorem C10_get_bounties_pure (fetch : String → Option Doc) (date now : String)
    (t : BountyTracker) :
    (get_bounties fetch date now t).2 = t ∧
    ((get_bounties fetch date now t).2).sent_bounties = t.sent_bounties ∧
    ((get_bounties fetch date now t).2).storage = t.storage :=
  ⟨rfl, rfl, rfl⟩

/-- C8 (counterexample): the claim "equal (title, price, link) implies equal
id" fails as stated.  A record whose element shows no price keeps the Python
int `0` (rendered `"0"` into the hashed string), while an element showing
`$0` parses the float `0.0` (rendered `"0.0"`); the two records below agree
on title, price value and link yet get different ids. -/
theorem C8_counterexample :
    (extract_bounty_data { text := "no price given", titleText := some "T", anchorHref := none }
        "https://replit.com" "N").title =
      (extract_bounty_data { text := "fee $0 today", titleText := some "T", anchorHref := none }
        "https://replit.com" "N").title ∧
    (extract_bounty_data { text := "no price given", titleText := some "T", anchorHref := none }
        "https://replit.com" "N").price.toRat =
      (extract_bounty_data { text := "fee $0 today", titleText := some "T", anchorHref := none }
        "https://replit.com" "N").price.toRat ∧
    (extract_bounty_data { text := "no price given", titleText := some "T", anchorHref := none }
        "https://replit.com" "N").link =
      (extract_bounty_data { text := "fee $0 today", titleText := some "T", anchorHref := none }
        "https://replit.com" "N").link ∧
    (extract_bounty_data { text := "no price given", titleText := some "T", anchorHref := none }
        "https://replit.com" "N").id ≠
      (extract_bounty_data { text := "fee $0 today", titleText := some "T", anchorHref := none }
        "https://replit.com" "N").id := by
  refine ⟨by decide, ?_, by decide, by decide⟩
  rw [show (extract_bounty_data
      { text := "no price given", titleText := some "T", anchorHref := none }
      "https://replit.com" "N").price = PyNum.intZero from by decide,
    show (extract_bounty_data
      { text := "fee $0 today", titleText := some "T", anchorHref := none }
      "https://replit.com" "N").price = PyNum.flt ⟨0, 0⟩ from by decide]
  rfl

/-- C8 (amended): record identity is a deterministic function of (title,
price, link), where the price counts with its numeric value *and* its kind
(matched float versus the unmatched int `0`): two extracted records agreeing
on title, link, price value and price kind get equal ids, whatever their
source elements, base URLs or extraction times were. -/
theorem C8_id_deterministic (e₁ e₂ : HtmlElement) (u₁ u₂ n₁ n₂ : String)
    (ht : (extract_bounty_data e₁ u₁ n₁).title = (extract_bounty_data e₂ u₂ n₂).title)
    (hp : (extract_bounty_data e₁ u₁ n₁).price.toRat =
      (extract_bounty_data e₂ u₂ n₂).price.toRat)
    (hk : (extract_bounty_data e₁ u₁ n₁).price.isFloat =
      (extract_bounty_data e₂ u₂ n₂).price.isFloat)
    (hl : (extract_bounty_data e₁ u₁ n₁).link = (extract_bounty_data e₂ u₂ n₂).link) :
    (extract_bounty_data e₁ u₁ n₁).id = (extract_bounty_data e₂ u₂ n₂).id := by
  have hrepr : pyNumRepr (extract_bounty_data e₁ u₁ n₁).price =
      pyNumRepr (extract_bounty_data e₂ u₂ n₂).price :=
    pyNumRepr_congr _ _ hk hp
  show md5hex ((extract_bounty_data e₁ u₁ n₁).title ++
      pyNumRepr (extract_bounty_data e₁ u₁ n₁).price ++ (extract_bounty_data e₁ u₁ n₁).link) =
    md5hex ((extract_bounty_data e₂ u₂ n₂).title ++
      pyNumRepr (extract_bounty_data e₂ u₂ n₂).price ++ (extract_bounty_data e₂ u₂ n₂).link)
  rw [ht, hrepr, hl]

theorem C8_id_deterministic_witness :
    (extract_bounty_data
      { text := "Job $300 offered", titleText := some "Job", anchorHref := some "/j" }
      "https://replit.com" "T1").id =
    (extract_bounty_data
      { text := "Job pays $300 now", titleText := some "Job", anchorHref := some "/j" }
      "https://replit.com" "T2").id := by
  refine C8_id_deterministic _ _ _ _ _ _ (by decide) ?_ (by decide) (by decide)
  rw [show (extract_bounty_data
      { text := "Job $300 offered", titleText := some "Job", anchorHref := some "/j" }
      "https://replit.com" "T1").price = PyNum.flt ⟨300, 0⟩ from by decide,
    show (extract_bounty_data
      { text := "Job pays $300 now", titleText := some "Job", anchorHref := some "/j" }
      "https://replit.com" "T2").price = PyNum.flt ⟨300, 0⟩ from by decide]

/-- C2: selection restricts to records whose id the store does not contain;
it returns `none` exactly when that restriction is empty, and otherwise the
returned record is a maximum-price element of the restriction that occurs
before every strictly-smaller-priced... before any other maximal one: every
element of a prefix strictly preceding it has strictly smaller price. -/
theorem C2_select_max_first (bounties : List Bounty) (t : BountyTracker) :
    (∀ b, b ∈ unsentOf bounties t ↔ b ∈ bounties ∧ is_bounty_sent t b.id = false) ∧
    (selectBounty bounties t = none ↔ unsentOf bounties t = []) ∧
    ∀ m, selectBounty bounties t = some m →
      (∀ y ∈ unsentOf bounties t, y.price.toRat ≤ m.price.toRat) ∧
      ∃ pre post, unsentOf bounties t = pre ++ m :: post ∧
        ∀ y ∈ pre, y.price.toRat < m.price.toRat := by
  refine ⟨?_, ?_, ?_⟩
  · intro b
    unfold unsentOf
    rw [List.mem_filter]
    constructor
    · rintro ⟨hb, hs⟩
      exact ⟨hb, by rwa [Bool.not_eq_true'] at hs⟩
    · rintro ⟨hb, hs⟩
      exact ⟨hb, by rw [hs]; rfl⟩
  · unfold selectBounty
    cases h : unsentOf bounties t with
    | nil => simp
    | cons x xs => simp
  · intro m hm
    unfold selectBounty at hm
    cases h : unsentOf bounties t with
    | nil =>
      rw [h] at hm
      cases hm
    | cons x xs =>
      rw [h] at hm
      have hmeq : foldMax x xs = m := Option.some.inj hm
      obtain ⟨hmax, pre, post, hdec, hpre⟩ := foldMax_spec xs x
      rw [hmeq] at hmax hdec hpre
      exact ⟨hmax, pre, post, hdec, hpre⟩

theorem C2_select_max_first_witness :
    selectBounty [bLow, bHigh] (BountyTracker.init none) = some bHigh ∧
    selectBounty [bLow, bHigh] (BountyTracker.init (some ["a", "b"])) = none := by
  constructor
  · decide
  · exact (C2_select_max_first [bLow, bHigh]
      (BountyTracker.init (some ["a", "b"]))).2.1.mpr (by decide)

/-- C3: the dedup store is monotone, idempotent and durable — after
`mark(id)`, `has(id)` holds, also after further marks and after re-loading
the store from what was persisted; marking an already-marked id leaves the
set unchanged; and marking never removes any identifier. -/
theorem C3_tracker_monotone (t : BountyTracker) (i j : String) :
    is_bounty_sent (mark_bounty_sent t i) i = true ∧
    is_bounty_sent (mark_bounty_sent (mark_bounty_sent t i) j) i = true ∧
    (is_bounty_sent t i = true → (mark_bounty_sent t i).sent_bounties = t.sent_bounties) ∧
    is_bounty_sent (BountyTracker.init (mark_bounty_sent t i).storage) i = true ∧
    (is_bounty_sent t j = true → is_bounty_sent (mark_bounty_sent t i) j = true) := by
  simp only [is_bounty_sent, decide_eq_true_eq]
  refine ⟨?_, ?_, ?_, ?_, ?_⟩
  · exact (mem_mark t i i).mpr (Or.inl rfl)
  · exact (mem_mark _ j i).mpr (Or.inr ((mem_mark t i i).mpr (Or.inl rfl)))
  · intro hi
    show (if i ∈ t.sent_bounties then t.sent_bounties else t.sent_bounties ++ [i]) =
      t.sent_bounties
    rw [if_pos hi]
  · show i ∈ ((mark_bounty_sent t i).sent_bounties).dedup
    rw [List.mem_dedup]
    exact (mem_mark t i i).mpr (Or.inl rfl)
  · intro hj
    exact (mem_mark t i j).mpr (Or.inr hj)

theorem C3_tracker_monotone_witness :
    is_bounty_sent (mark_bounty_sent (BountyTracker.init none) "id1") "id1" = true ∧
    is_bounty_sent (BountyTracker.init
      (mark_bounty_sent (BountyTracker.init none) "id1").storage) "id1" = true ∧
    (mark_bounty_sent trackedOnce "id1").sent_bounties = trackedOnce.sent_bounties ∧
    is_bounty_sent (mark_bounty_sent trackedOnce "id2") "id1" = true :=
  ⟨(C3_tracker_monotone (BountyTracker.init none) "id1" "id2").1,
    (C3_tracker_monotone (BountyTracker.init none) "id1" "id2").2.2.2.1,
    (C3_tracker_monotone trackedOnce "id1" "id2").2.2.1 (by decide),
    (C3_tracker_monotone trackedOnce "id2" "id1").2.2.2.2 (by decide)⟩

/-- C4: a record's id is marked if and only if delivery succeeded — with a
non-empty unsent selection, a failed delivery yields the 500 `"error"`
response carrying the chosen record with the tracker unchanged; a missing
webhook yields the `"warning"` response carrying the chosen record with the
tracker unchanged; and a successful delivery marks exactly the chosen
record's id. -/
theorem C4_mark_iff_delivery (bounties : List Bounty) (x : Bounty) (xs : List Bounty)
    (wh : String) (deliver : String → Bounty → Bool) (t : BountyTracker)
    (hu : unsentOf bounties t = x :: xs) :
    (deliver wh (foldMax x xs) = false →
      trigger_scrape bounties (some wh) deliver t =
        (ScrapeResult.sendFailed (foldMax x xs), t) ∧
      (trigger_scrape bounties (some wh) deliver t).1.httpCode = 500 ∧
      (trigger_scrape bounties (some wh) deliver t).1.statusStr = "error") ∧
    (trigger_scrape bounties none deliver t =
        (ScrapeResult.noWebhook (foldMax x xs) bounties.length (x :: xs).length, t) ∧
      (trigger_scrape bounties none deliver t).1.statusStr = "warning") ∧
    (deliver wh (foldMax x xs) = true →
      trigger_scrape bounties (some wh) deliver t =
        (ScrapeResult.sent (foldMax x xs) bounties.length (x :: xs).length,
          mark_bounty_sent t (foldMax x xs).id)) := by
  have hne : bounties.isEmpty = false := by
    cases hb : bounties with
    | nil =>
      rw [hb] at hu
      exact List.noConfusion hu
    | cons _ _ => rfl
  have hsome : ∀ d : String → Bounty → Bool,
      trigger_scrape bounties (some wh) d t =
        if d wh (foldMax x xs) then
          (ScrapeResult.sent (foldMax x xs) bounties.length (x :: xs).length,
            mark_bounty_sent t (foldMax x xs).id)
        else (ScrapeResult.sendFailed (foldMax x xs), t) := by
    intro d
    unfold trigger_scrape
    rw [hne, if_neg Bool.false_ne_true, hu]
  have hnone : trigger_scrape bounties none deliver t =
      (ScrapeResult.noWebhook (foldMax x xs) bounties.length (x :: xs).length, t) := by
    unfold trigger_scrape
    rw [hne, if_neg Bool.false_ne_true, hu]
  refine ⟨?_, ⟨hnone, by rw [hnone]; rfl⟩, ?_⟩
  · intro hd
    have h1 := hsome deliver
    rw [hd, if_neg Bool.false_ne_true] at h1
    exact ⟨h1, by rw [h1]; rfl, by rw [h1]; rfl⟩
  · intro hd
    have h1 := hsome deliver
    rw [hd, if_pos rfl] at h1
    exact h1

theorem C4_mark_iff_delivery_witness :
    trigger_scrape [bLow, bHigh] (some "wh") (fun _ _ => false) (BountyTracker.init none) =
      (ScrapeResult.sendFailed bHigh, BountyTracker.init none) ∧
    trigger_scrape [bLow, bHigh] none (fun _ _ => false) (BountyTracker.init none) =
      (ScrapeResult.noWebhook bHigh 2 2, BountyTracker.init none) ∧
    (trigger_scrape [bLow, bHigh] (some "wh") (fun _ _ => true) (BountyTracker.init none)).2 =
      mark_bounty_sent (BountyTracker.init none) "b" := by
  have hmax : foldMax bLow [bHigh] = bHigh := by decide
  have hf := C4_mark_iff_delivery [bLow, bHigh] bLow [bHigh] "wh" (fun _ _ => false)
    (BountyTracker.init none) (by decide)
  have ht := C4_mark_iff_delivery [bLow, bHigh] bLow [bHigh] "wh" (fun _ _ => true)
    (BountyTracker.init none) (by decide)
  refine ⟨?_, ?_, ?_⟩
  · have := (hf.1 rfl).1
    rwa [hmax] at this
  · have := hf.2.1.1
    rwa [hmax] at this
  · rw [(ht.2.2 rfl), hmax]
    rfl

/-- C5 (code bug): each element's price is meant to be the numeric value of
the first currency match, but `len(matches[0]) == 2` is true for a
*two-character string* match, sending it down the range branch built for
tuples: on `"Logo task $50"` the first match is `"50"` (numeric value 50),
yet the extracted price is `max(float('5'), float('0')) = 5.0`.  The sibling
`_extract_from_text` guards the same branch with `isinstance(match, tuple)`,
showing the intent.  The claim's concrete `$2,500.00` scenario (an 8-char
match) does hold, including the resolved link. -/
theorem C5_two_char_currency_bug :
    re_findall_currency "Logo task $50" = ["50"] ∧
    parsePyFloat? (stripCommas "50") = some ⟨50, 0⟩ ∧
    Dec.toRat ⟨50, 0⟩ = 50 ∧
    extractPrice "Logo task $50" = PyNum.flt ⟨5, 0⟩ ∧
    PyNum.toRat (PyNum.flt ⟨5, 0⟩) = 5 ∧
    extractPrice "Build a Dashboard $2,500.00" = PyNum.flt ⟨250000, 2⟩ ∧
    PyNum.toRat (PyNum.flt ⟨250000, 2⟩) = 2500 ∧
    (extract_bounty_data cardElement "https://example.test" "T").price =
      PyNum.flt ⟨250000, 2⟩ ∧
    (extract_bounty_data cardElement "https://example.test" "T").link =
      "https://example.test/bounties/42" :=
  ⟨by decide, by decide, by norm_num [Dec.toRat], by decide,
    by norm_num [PyNum.toRat, PyNum.toDec, Dec.toRat], by decide,
    by norm_num [PyNum.toRat, PyNum.toDec, Dec.toRat], by decide, by decide⟩

/-- C6: when neither the currency nor the cycles pattern matches anywhere
and the range pattern's first match has endpoints `a` and `b`, the extracted
price is a float whose value is the maximum of the two endpoint values. -/
theorem C6_range_takes_max (text a b : String) (rest : List (String × String)) (va vb : Dec)
    (h1 : re_findall_currency text = [])
    (h2 : re_findall_cycles text = [])
    (h3 : re_findall_rangeElem text = (a, b) :: rest)
    (ha : parsePyFloat? (stripCommas a) = some va)
    (hb : parsePyFloat? (stripCommas b) = some vb) :
    extractPrice text = PyNum.flt (Dec.max va vb) ∧
    (extractPrice text).toRat = Max.max va.toRat vb.toRat := by
  have hmv : matchValue (PyMatch.pair a b) = some (Dec.max va vb) := by
    show (match parsePyFloat? (stripCommas a), parsePyFloat? (stripCommas b) with
      | some x, some y => some (Dec.max x y)
      | _, _ => none) = some (Dec.max va vb)
    rw [ha, hb]
  have hkey : extractPrice text = PyNum.flt (Dec.max va vb) := by
    unfold extractPrice elemMatches
    rw [h1, h2, h3]
    simp only [List.map_nil, List.map_cons, priceLoop, hmv]
  refine ⟨hkey, ?_⟩
  rw [hkey]
  exact Dec.max_toRat va vb

theorem C6_range_takes_max_witness : (extractPrice "100-500").toRat = 500 := by
  have h := C6_range_takes_max "100-500" "100" "500" [] ⟨100, 0⟩ ⟨500, 0⟩
    (by decide) (by decide) (by decide) (by decide) (by decide)
  rw [h.2, show Dec.toRat ⟨100, 0⟩ = 100 by norm_num [Dec.toRat],
    show Dec.toRat ⟨500, 0⟩ = 500 by norm_num [Dec.toRat]]
  exact max_eq_right (by norm_num)

/-- C7: when some structural bounty selector matches, the pipeline's output
is exactly the records extracted from the elements of the *first* matching
selector — later selectors, the free-text tier and the sample tier
contribute nothing. -/
theorem C7_first_selector_wins (doc : Doc) (url now sel : String)
    (h : bounty_selectors.find? (fun s => !(doc.select s).isEmpty) = some sel) :
    parse_bounties doc url now =
      (doc.select sel).map (fun e => extract_bounty_data e url now) := by
  obtain ⟨heq, hne⟩ := parseStructured_of_find? doc url now bounty_selectors sel h
  have hmapne : ((doc.select sel).map (fun e => extract_bounty_data e url now)).isEmpty
      = false := by
    cases hsel : doc.select sel with
    | nil => exact absurd hsel hne
    | cons e es => rfl
  show filter_recent_bounties
      (if (parseStructured doc url now bounty_selectors).isEmpty = true then
        extract_from_text doc.content url now
      else parseStructured doc url now bounty_selectors) = _
  rw [heq, hmapne, if_neg Bool.false_ne_true, filter_recent_id]

theorem C7_first_selector_wins_witness :
    parse_bounties docWithCard "https://example.test" "T" =
      [extract_bounty_data cardElement "https://example.test" "T"] := by
  rw [C7_first_selector_wins docWithCard "https://example.test" "T" ".bounty-card" (by decide)]
  rfl

/-- C9: in the free-text tier every record's id is derived from the price
value and the page URL alone, so two records of the same page with equal
prices share one id (and the output can contain several records with one
id, as the witness's page with two `$100` matches shows). -/
theorem C9_text_tier_id_collapse (content url now : String) (r₁ r₂ : Bounty)
    (h₁ : r₁ ∈ extract_from_text content url now)
    (h₂ : r₂ ∈ extract_from_text content url now)
    (hp : r₁.price.toRat = r₂.price.toRat) :
    r₁.id = r₂.id := by
  obtain ⟨v₁, hv₁, hid₁, _⟩ := extract_from_text_shape content url now r₁ h₁
  obtain ⟨v₂, hv₂, hid₂, _⟩ := extract_from_text_shape content url now r₂ h₂
  rw [hid₁, hid₂]
  have hval : v₁.toRat = v₂.toRat := by
    have e₁ : r₁.price.toRat = v₁.toRat := by rw [hv₁]; rfl
    have e₂ : r₂.price.toRat = v₂.toRat := by rw [hv₂]; rfl
    rw [← e₁, ← e₂, hp]
  rw [pyFloatStr_congr v₁ v₂ hval]

theorem C9_text_tier_id_collapse_witness :
    (extract_from_text "$100 and $100" "u" "t").length = 2 ∧
    ((extract_from_text "$100 and $100" "u" "t").getD 0 dummyBounty).id =
      ((extract_from_text "$100 and $100" "u" "t").getD 1 dummyBounty).id := by
  refine ⟨by decide, ?_⟩
  refine C9_text_tier_id_collapse "$100 and $100" "u" "t"
    ((extract_from_text "$100 and $100" "u" "t").getD 0 dummyBounty)
    ((extract_from_text "$100 and $100" "u" "t").getD 1 dummyBounty)
    (by decide) (by decide) ?_
  rw [show ((extract_from_text "$100 and $100" "u" "t").getD 0 dummyBounty).price =
      ((extract_from_text "$100 and $100" "u" "t").getD 1 dummyBounty).price from by decide]

/-- C1 (counterexample): the claim "extraction always returns a non-empty
sequence, falling back to the sample set" fails as stated — on content where
no selector matches and no free-text pattern matches, `_parse_bounties`
returns the empty list; the sample set is not consulted there. -/
theorem C1_counterexample :
    parse_bounties emptyDoc "https://replit.com/bounties" "T" = [] := by decide

/-- C1 (amended): the sample-set floor lives at the fetch level, not at the
content level — when every candidate URL fails, `scrape_bounties` returns
the (non-empty) sample set; but extraction over fetched content returns the
empty sequence whenever both the structured and the free-text tier produce
nothing. -/
theorem C1_sample_floor (fetch : String → Option Doc) (date now : String)
    (hfail : ∀ u ∈ urls_to_try, fetch u = none) :
    scrape_bounties fetch date now = get_sample_bounties date now ∧
    scrape_bounties fetch date now ≠ [] ∧
    ∀ (doc : Doc) (url : String),
      parseStructured doc url now bounty_selectors = [] →
      extract_from_text doc.content url now = [] →
      parse_bounties doc url now = [] := by
  have hnone : urls_to_try.findSome? (fun u => (fetch u).map (fun d => (d, u))) = none :=
    List.findSome?_eq_none_iff.mpr (fun u hu => by rw [hfail u hu]; rfl)
  have hs : scrape_bounties fetch date now = get_sample_bounties date now := by
    unfold scrape_bounties
    rw [hnone]
  refine ⟨hs, ?_, ?_⟩
  · rw [hs]
    exact List.cons_ne_nil _ _
  · intro doc url hstruct htext
    show filter_recent_bounties
        (if (parseStructured doc url now bounty_selectors).isEmpty = true then
          extract_from_text doc.content url now
        else parseStructured doc url now bounty_selectors) = []
    rw [hstruct, htext]
    rfl

theorem C1_sample_floor_witness :
    scrape_bounties (fun _ => none) "2024-01-01" "T" =
      get_sample_bounties "2024-01-01" "T" :=
  (C1_sample_floor (fun _ => none) "2024-01-01" "T" (fun _ _ => rfl)).1

end BountyBot
